import Mathlib

/-!
Shallow embedding of the `flight_sim` vertical-fall simulation
(`src/simulations/vertical_fall/src/{common,hoverslam,pid}.c` together with
`src/lib/src/utils.c` and the headers under `src/rocketlib/include`).

Modelling conventions:
* C `double`/`float` arithmetic is modelled by exact rational arithmetic (`ℚ`).
* The two places where IEEE special values matter — the `INFINITY` sentinel the
  event detector writes into `velocity.z`, and the cost arithmetic that can hit
  `0 * INFINITY = NaN` — are modelled by the extended-value type `EF`
  (finite / +inf / -inf / NaN) with the exact IEEE rules for those operations.
* `sqrt` from libm has no exact rational counterpart; functions that call it
  take an explicit `sq : ℚ → ℚ` parameter standing for it.  Theorems quantify
  over `sq`, so they hold in particular for the real square root.
* Unbounded `while` loops are modelled by structural recursion on an explicit
  `fuel : ℕ` bound, returning `Option`; `none` means the bound was exhausted.
-/

namespace FlightSim

/-- Extended value: a C `double` that may be an IEEE infinity or NaN.
Only the operations the simulation actually performs on possibly-special
values are defined, each following IEEE-754 exactly. -/
inductive EF where
  | fin (q : ℚ)
  | pinf
  | ninf
  | nan
deriving DecidableEq, Repr, Inhabited

namespace EF

/-- IEEE `fabs`. -/
def abs : EF → EF
  | fin q => fin |q|
  | pinf => pinf
  | ninf => pinf
  | nan => nan

/-- IEEE multiplication of a finite double `w` with an extended value:
`w * ±inf` is `±inf` for `w > 0`, `∓inf` for `w < 0`, and NaN for `w = 0`. -/
def mulq (w : ℚ) : EF → EF
  | fin q => fin (w * q)
  | pinf => if 0 < w then pinf else if w < 0 then ninf else nan
  | ninf => if 0 < w then ninf else if w < 0 then pinf else nan
  | nan => nan

/-- IEEE addition: NaN absorbs, `+inf + -inf = NaN`, infinities absorb finites. -/
def add : EF → EF → EF
  | nan, _ => nan
  | _, nan => nan
  | pinf, ninf => nan
  | pinf, _ => pinf
  | ninf, pinf => nan
  | ninf, _ => ninf
  | fin _, pinf => pinf
  | fin _, ninf => ninf
  | fin a, fin b => fin (a + b)

/-- IEEE `<`: any comparison involving NaN is false. -/
def lt : EF → EF → Bool
  | fin a, fin b => a < b
  | fin _, pinf => true
  | ninf, fin _ => true
  | ninf, pinf => true
  | _, _ => false

end EF

/-! ## Data model (`utils.h`, `rocket.h`, `simulator.h`) -/

/-- `vec3_t` from `utils.h`. -/
structure Vec3 where
  x : ℚ
  y : ℚ
  z : ℚ
deriving DecidableEq, Repr, Inhabited

/-- `engine_t` from `rocket.h`. -/
structure Engine where
  thrust : ℚ
  consumption : ℚ
deriving DecidableEq, Repr, Inhabited

/-- `planet_t` from `rocket.h`. -/
structure Planet where
  mass : ℚ
  radius : ℚ
deriving DecidableEq, Repr, Inhabited

/-- The simulation-relevant fields of `rocket_t` from `rocket.h` (the
`display_t` header and the unused function-pointer members carry no
simulation state and are omitted). -/
structure Rocket where
  engine : Engine
  pl : Planet
  velocity : Vec3
  acc : Vec3
  coords : Vec3
  directions : Vec3
  time : ℚ
  dry_mass : ℚ
  fuel_mass : ℚ
  thrust_percent : ℚ
deriving DecidableEq, Repr, Inhabited

/-- `simulator_t` from `simulator.h`: the mutable fields `dt`, `time` and the
pointee of `object`.  Both simulation mains install `update_status_rk4`,
`ground_contact_detector`, `hoverslam_event_interpolator` and `take_step` as
the function-pointer members, and no code reassigns them, so they are fixed
in the embedding rather than carried as state. -/
structure Scene where
  dt : ℚ
  time : ℚ
  rocket : Rocket
deriving DecidableEq, Repr, Inhabited

/-- The macro `G`: `6.67430 * 1e-11`. -/
def Gconst : ℚ := 667430 / 10 ^ 16

/-- The macro `_M_PI_2_` from `utils.h` (an exact decimal literal). -/
def mPi2 : ℚ := 157079632679489661923 / 10 ^ 20

/-- The macro `calculate_g(r)`:
`G * ((r).pl.mass * 1e24 / pow((r).pl.radius * 1e3 + (r).coords.z, 2))`. -/
def calculate_g (r : Rocket) : ℚ :=
  Gconst * (r.pl.mass * 10 ^ 24 / (r.pl.radius * 10 ^ 3 + r.coords.z) ^ 2)

/-- The macro `FULL_MASS`. -/
def full_mass (r : Rocket) : ℚ := r.dry_mass + r.fuel_mass

/-- The macro `CURRENT_THRUST`. -/
def current_thrust (r : Rocket) : ℚ := r.engine.thrust * r.thrust_percent

/-- `calculate_forces` from `common.c`. -/
def calculate_forces (r : Rocket) : Vec3 :=
  let mass := full_mass r
  ⟨0, 0, (current_thrust r - mass * calculate_g r) / mass⟩

/-! ## Events (`events.h`, `common.c`) -/

/-- `event_type_t` from `events.h`, with all five declared values. -/
inductive EventT where
  | ev_none
  | ev_ground_contact
  | ev_unstable
  | ev_out_of_fuel
  | ev_custom
deriving DecidableEq, Repr, Inhabited

/-- The branch structure of `ground_contact_detector` from `common.c`:
which event value the function returns for a (current, previous) state
pair.  The in-place write `current_state->velocity.z = INFINITY` performed
on the unstable branch is modelled by `unstable_vz` below. -/
def ground_contact_detector (cur prev : Rocket) : EventT :=
  if cur.coords.z ≤ 0 ∧ 0 < prev.coords.z then .ev_ground_contact
  else if 0 < cur.velocity.z ∧ 1 < cur.time then .ev_unstable
  else .ev_none

/-- The value held by `current_state->velocity.z` after
`ground_contact_detector` returns: the detector overwrites it with
`INFINITY` exactly on the unstable branch and leaves it unchanged
otherwise. -/
def unstable_vz (cur : Rocket) : EventT → EF
  | .ev_unstable => .pinf
  | _ => .fin cur.velocity.z

/-- `hoverslam_event_interpolator` from `common.c`.  `dt` is `scene->dt`;
`prev` is `*previous_state_ptr` and `cur` the pointee of `scene->object`,
whose post-call value is returned. -/
def hoverslam_event_interpolator (dt : ℚ) (prev cur : Rocket) (event : EventT) :
    Rocket :=
  if event ≠ .ev_ground_contact then cur
  else
    let alpha := prev.coords.z / (prev.coords.z - cur.coords.z)
    { cur with
      time := prev.time + alpha * dt
      coords := ⟨prev.coords.x + alpha * (cur.coords.x - prev.coords.x),
                 prev.coords.y + alpha * (cur.coords.y - prev.coords.y),
                 0⟩
      velocity := ⟨prev.velocity.x + alpha * (cur.velocity.x - prev.velocity.x),
                   prev.velocity.y + alpha * (cur.velocity.y - prev.velocity.y),
                   prev.velocity.z + alpha * (cur.velocity.z - prev.velocity.z)⟩
      fuel_mass := prev.fuel_mass - alpha * (prev.fuel_mass - cur.fuel_mass) }

/-! ## RK4 integrator (`update_status_rk4` in `common.c`) -/

/-- The stage sub-state `r_k2` of `update_status_rk4`, including its own
fuel clamp (`if (r_k2.fuel_mass < 0) r_k2.fuel_mass = 0;`), which runs
before `calculate_forces(&r_k2)`.  `v1`/`a1` are the k1-stage velocity and
acceleration. -/
def rk4_k2 (r0 : Rocket) (dt : ℚ) (v1 a1 : Vec3) : Rocket :=
  let f := r0.fuel_mass - r0.engine.consumption * r0.thrust_percent * (dt / 2)
  { r0 with
    coords := ⟨r0.coords.x + v1.x * (dt / 2), r0.coords.y + v1.y * (dt / 2),
               r0.coords.z + v1.z * (dt / 2)⟩
    velocity := ⟨r0.velocity.x + a1.x * (dt / 2), r0.velocity.y + a1.y * (dt / 2),
                 r0.velocity.z + a1.z * (dt / 2)⟩
    fuel_mass := if f < 0 then 0 else f }

/-- The stage sub-state `r_k3` of `update_status_rk4` with its fuel clamp. -/
def rk4_k3 (r0 : Rocket) (dt : ℚ) (v2 a2 : Vec3) : Rocket :=
  let f := r0.fuel_mass - r0.engine.consumption * r0.thrust_percent * (dt / 2)
  { r0 with
    coords := ⟨r0.coords.x + v2.x * (dt / 2), r0.coords.y + v2.y * (dt / 2),
               r0.coords.z + v2.z * (dt / 2)⟩
    velocity := ⟨r0.velocity.x + a2.x * (dt / 2), r0.velocity.y + a2.y * (dt / 2),
                 r0.velocity.z + a2.z * (dt / 2)⟩
    fuel_mass := if f < 0 then 0 else f }

/-- The stage sub-state `r_k4` of `update_status_rk4` with its fuel clamp
(this stage advances by the full `dt`). -/
def rk4_k4 (r0 : Rocket) (dt : ℚ) (v3 a3 : Vec3) : Rocket :=
  let f := r0.fuel_mass - r0.engine.consumption * r0.thrust_percent * dt
  { r0 with
    coords := ⟨r0.coords.x + v3.x * dt, r0.coords.y + v3.y * dt,
               r0.coords.z + v3.z * dt⟩
    velocity := ⟨r0.velocity.x + a3.x * dt, r0.velocity.y + a3.y * dt,
                 r0.velocity.z + a3.z * dt⟩
    fuel_mass := if f < 0 then 0 else f }

/-- `update_status_rk4` from `common.c`, acting on the pointee of
`scene->object` with step `scene->dt`. -/
def update_status_rk4 (dt : ℚ) (r : Rocket) (new_directions : Vec3) : Rocket :=
  let r0 := { r with directions := new_directions }
  let v1 := r0.velocity
  let a1 := calculate_forces r0
  let rk2 := rk4_k2 r0 dt v1 a1
  let v2 := rk2.velocity
  let a2 := calculate_forces rk2
  let rk3 := rk4_k3 r0 dt v2 a2
  let v3 := rk3.velocity
  let a3 := calculate_forces rk3
  let rk4s := rk4_k4 r0 dt v3 a3
  let v4 := rk4s.velocity
  let a4 := calculate_forces rk4s
  let fuel1 := r0.fuel_mass - r0.engine.consumption * r0.thrust_percent * dt
  { r0 with
    time := r0.time + dt
    coords := ⟨r0.coords.x + (dt / 6) * (v1.x + 2 * v2.x + 2 * v3.x + v4.x),
               r0.coords.y + (dt / 6) * (v1.y + 2 * v2.y + 2 * v3.y + v4.y),
               r0.coords.z + (dt / 6) * (v1.z + 2 * v2.z + 2 * v3.z + v4.z)⟩
    velocity := ⟨r0.velocity.x + (dt / 6) * (a1.x + 2 * a2.x + 2 * a3.x + a4.x),
                 r0.velocity.y + (dt / 6) * (a1.y + 2 * a2.y + 2 * a3.y + a4.y),
                 r0.velocity.z + (dt / 6) * (a1.z + 2 * a2.z + 2 * a3.z + a4.z)⟩
    acc := ⟨(a1.x + 2 * a2.x + 2 * a3.x + a4.x) / 6,
            (a1.y + 2 * a2.y + 2 * a3.y + a4.y) / 6,
            (a1.z + 2 * a2.z + 2 * a3.z + a4.z) / 6⟩
    fuel_mass := if fuel1 < 0 then 0 else fuel1
    thrust_percent := if fuel1 < 0 then 0 else r0.thrust_percent }

/-- `take_step` from `common.c`: advances `scene->time` by `dt` and calls the
installed integrator (`update_status_rk4` in both simulation mains) with the
fixed commanded orientation `(0, 0, _M_PI_2_)`. -/
def take_step (s : Scene) : Scene :=
  { s with
    time := s.time + s.dt
    rocket := update_status_rk4 s.dt s.rocket ⟨0, 0, mPi2⟩ }

/-! ## Hoverslam probe run (`velocity_at_landing` in `hoverslam.c`) -/

/-- Result of one `velocity_at_landing` run: the returned value, the state
of the simulator (`dt`, `time`, pointee of `object`) when the function
returns, the event that ended the run, and — instrumentation — the list of
pre-step rocket states, recorded just after the thrust-command `if` of each
loop iteration. -/
structure ValResult where
  value : EF
  scene : Scene
  event : EventT
  commanded : List Rocket
deriving DecidableEq, Repr, Inhabited

/-- The `while` loop of `velocity_at_landing`: each iteration commands full
thrust when `scene->time >= ignition_time && r->thrust_percent == 0`,
snapshots `prev`, steps, runs the detector, and exits on ground contact,
instability, or `z <= 0`. -/
def val_loop (ign : ℚ) : ℕ → Scene → List Rocket →
    Option (Scene × Rocket × EventT × List Rocket)
  | 0, _, _ => none
  | n + 1, scene, tr =>
    let r := scene.rocket
    let r1 := if ign ≤ scene.time ∧ r.thrust_percent = 0
              then { r with thrust_percent := 1 } else r
    let prev := r1
    let scene1 := take_step { scene with rocket := r1 }
    let event := ground_contact_detector scene1.rocket prev
    let tr1 := tr ++ [r1]
    match event with
    | .ev_ground_contact => some (scene1, prev, .ev_ground_contact, tr1)
    | .ev_unstable => some (scene1, prev, .ev_unstable, tr1)
    | e =>
      if scene1.rocket.coords.z ≤ 0 then some (scene1, prev, e, tr1)
      else val_loop ign n scene1 tr1

/-- `velocity_at_landing` from `hoverslam.c`.  After the loop the installed
interpolator runs, the result is `fabs(r->velocity.z)` (which is `+inf`
when the detector tripped the unstable branch and wrote `INFINITY`), and
`scene->time` is reset to 0. -/
def velocity_at_landing (fuel : ℕ) (scene : Scene) (ign : ℚ) :
    Option ValResult :=
  match val_loop ign fuel scene [] with
  | none => none
  | some (scene1, prev, event, tr) =>
    let r2 := hoverslam_event_interpolator scene1.dt prev scene1.rocket event
    let vz := unstable_vz r2 event
    some ⟨EF.abs vz, { scene1 with time := 0, rocket := r2 }, event, tr⟩

/-! ## Golden-section search (`golden_search_hoverslam` in `hoverslam.c`) -/

/-- The three restore statements `scene->dt = dt; scene->time = time;
*(rocket_t *)scene->object = r;` that `golden_search_hoverslam` issues
after each probe, where `saved` holds the entry-time values. -/
def gs_restore (saved cur : Scene) : Scene :=
  { cur with dt := saved.dt, time := saved.time, rocket := saved.rocket }

/-- The loop state of `golden_search_hoverslam`, plus instrumentation: the
list of probe points passed to `velocity_at_landing` so far (in order) and
the number of completed loop iterations. -/
structure GsState where
  left : ℚ
  right : ℚ
  m1 : ℚ
  m2 : ℚ
  f1 : EF
  f2 : EF
  cur : Scene
  probes : List ℚ
  iters : ℕ
deriving DecidableEq, Repr, Inhabited

/-- Result of `golden_search_hoverslam`: the returned midpoint, the
simulator state on return, the final loop state, and the initial bracket
upper end `right0` (computed once from the baseline before any probe). -/
structure GsResult where
  t : ℚ
  scene : Scene
  left : ℚ
  right : ℚ
  m1 : ℚ
  m2 : ℚ
  f1 : EF
  f2 : EF
  probes : List ℚ
  iters : ℕ
  right0 : ℚ
deriving DecidableEq, Repr, Inhabited

/-- The `while (right - left > eps)` loop of `golden_search_hoverslam`.
Each iteration restores the baseline, then narrows the bracket: it keeps
one interior point and its objective value by assignment and calls
`velocity_at_landing` at exactly one new interior point. -/
def gs_loop (probeFuel : ℕ) (saved : Scene) (phi eps : ℚ) :
    ℕ → GsState → Option GsState
  | 0, st => if st.right - st.left ≤ eps then some st else none
  | n + 1, st =>
    if st.right - st.left ≤ eps then some st
    else
      let sc := gs_restore saved st.cur
      if EF.lt st.f1 st.f2 then
        let right := st.m2
        let m2 := st.m1
        let m1 := right - (right - st.left) / phi
        match velocity_at_landing probeFuel sc m1 with
        | none => none
        | some res =>
          gs_loop probeFuel saved phi eps n
            ⟨st.left, right, m1, m2, res.value, st.f1, res.scene,
             st.probes ++ [m1], st.iters + 1⟩
      else
        let left := st.m1
        let m1 := st.m2
        let m2 := left + (st.right - left) / phi
        match velocity_at_landing probeFuel sc m2 with
        | none => none
        | some res =>
          gs_loop probeFuel saved phi eps n
            ⟨left, st.right, m1, m2, st.f2, res.value, res.scene,
             st.probes ++ [m2], st.iters + 1⟩

/-- `golden_search_hoverslam` from `hoverslam.c`.  `sq` stands for libm
`sqrt`; it is used for `phi = (1 + sqrt(5)) / 2` and for the bracket upper
end `right = sqrt((r.coords.z * 2) / g)`, both computed once from the
baseline state saved at entry. -/
def golden_search_hoverslam (sq : ℚ → ℚ) (probeFuel loopFuel : ℕ)
    (scene : Scene) (eps : ℚ) : Option GsResult :=
  let r := scene.rocket
  let g := calculate_g r
  let phi := (1 + sq 5) / 2
  let right := sq (r.coords.z * 2 / g)
  let left : ℚ := 0
  let m1 := right - (right - left) / phi
  let m2 := left + (right - left) / phi
  match velocity_at_landing probeFuel scene m1 with
  | none => none
  | some res1 =>
    let sc1 := gs_restore scene res1.scene
    match velocity_at_landing probeFuel sc1 m2 with
    | none => none
    | some res2 =>
      let sc2 := gs_restore scene res2.scene
      match gs_loop probeFuel scene phi eps loopFuel
          ⟨left, right, m1, m2, res1.value, res2.value, sc2, [m1, m2], 0⟩ with
      | none => none
      | some st =>
        let scf := gs_restore scene st.cur
        some ⟨(st.left + st.right) / 2, scf, st.left, st.right, st.m1, st.m2,
              st.f1, st.f2, st.probes, st.iters, right⟩

/-! ## PID controller (`pid.c`, `PID.h`) -/

/-- A triple of rationals, modelling the C arrays `p[3]`, `dp[3]` and
`weights[3]`. -/
structure T3 where
  a : ℚ
  b : ℚ
  c : ℚ
deriving DecidableEq, Repr, Inhabited

/-- Index into a `T3`, mirroring `v[i]`. -/
def T3.get (v : T3) : Fin 3 → ℚ
  | 0 => v.a
  | 1 => v.b
  | 2 => v.c

/-- Assignment `v[i] = q`. -/
def T3.set (v : T3) : Fin 3 → ℚ → T3
  | 0, q => { v with a := q }
  | 1, q => { v with b := q }
  | 2, q => { v with c := q }

/-- `v[0] + v[1] + v[2]`. -/
def T3.sum (v : T3) : ℚ := v.a + v.b + v.c

/-- The simulation-relevant fields of the `PID` struct from `PID.h`
(gains, stored P/I/D terms, integral accumulator, previous error). -/
structure PIDc where
  K_p : ℚ
  K_i : ℚ
  K_d : ℚ
  P : ℚ
  I : ℚ
  D : ℚ
  integral : ℚ
  prev_err : ℚ
deriving DecidableEq, Repr, Inhabited

/-- The initializer `PID pid = {0}`. -/
def pidZero : PIDc := ⟨0, 0, 0, 0, 0, 0, 0, 0⟩

/-- `pid_calculate_thrust` from `pid.c`.  Returns the updated `*pid` and
the returned throttle.  `sq` stands for libm `sqrt` (used for the target
velocity `-sqrt(2 * g * z)`). -/
def pid_calculate_thrust (sq : ℚ → ℚ) (pid : PIDc) (r : Rocket) (dt : ℚ) :
    PIDc × ℚ :=
  let target_velocity := -(sq (2 * calculate_g r * r.coords.z))
  let err := target_velocity - r.velocity.z
  let Pv := pid.K_p * err
  let integral := pid.integral + err * dt
  let Iv := pid.K_i * integral
  let Dv := pid.K_d * (err - pid.prev_err) / dt
  let thrust := Pv + Iv + Dv
  let thrust2 := max 0 (min thrust r.engine.thrust)
  ({ pid with P := Pv, I := Iv, D := Dv, integral := integral, prev_err := err },
   thrust2 / r.engine.thrust)

/-- Result of one `evaluate_pid_cost` run: the returned cost, the event
that ended the run, the final pointee of `scene.object` (the heap rocket,
which outlives the by-value `scene` copy), and the final pointee of
`pid`. -/
structure CostResult where
  cost : EF
  event : EventT
  rocket : Rocket
  pid : PIDc
deriving DecidableEq, Repr, Inhabited

/-- The `while` loop of `evaluate_pid_cost`: snapshot `prev_state`, compute
the PID throttle, command `MIN(1, desired)` when `desired > 0` and fuel
remains (else 0), step, detect, and exit on ground contact, instability or
`z <= 0`. -/
def epc_loop (sq : ℚ → ℚ) : ℕ → PIDc → Scene →
    Option (Scene × Rocket × EventT × PIDc)
  | 0, _, _ => none
  | n + 1, pid, scene =>
    let r := scene.rocket
    let prev := r
    let pd := pid_calculate_thrust sq pid r scene.dt
    let r1 := if 0 < pd.2 ∧ 0 < r.fuel_mass
              then { r with thrust_percent := min 1 pd.2 }
              else { r with thrust_percent := 0 }
    let scene1 := take_step { scene with rocket := r1 }
    let event := ground_contact_detector scene1.rocket prev
    match event with
    | .ev_ground_contact => some (scene1, prev, .ev_ground_contact, pd.1)
    | .ev_unstable => some (scene1, prev, .ev_unstable, pd.1)
    | e =>
      if scene1.rocket.coords.z ≤ 0 then some (scene1, prev, e, pd.1)
      else epc_loop sq n pd.1 scene1

/-- `evaluate_pid_cost` from `pid.c`.  Resets `pid->integral` and
`pid->prev_err`, runs the loop, interpolates, and returns
`weights[0]*fabs(velocity.z) + weights[1]*fabs(coords.z) +
weights[2]*fuel_used` — computed with IEEE extended-value arithmetic, since
`velocity.z` is `INFINITY` after an unstable run. -/
def evaluate_pid_cost (sq : ℚ → ℚ) (fuel : ℕ) (pid0 : PIDc) (scene : Scene)
    (w : T3) : Option CostResult :=
  let pid := { pid0 with integral := 0, prev_err := 0 }
  let initial_fuel_mass := scene.rocket.fuel_mass
  match epc_loop sq fuel pid scene with
  | none => none
  | some (scene1, prev, event, pid1) =>
    let r2 := hoverslam_event_interpolator scene1.dt prev scene1.rocket event
    let vz := unstable_vz r2 event
    let fuel_used := initial_fuel_mass - r2.fuel_mass
    let cost := EF.add (EF.add (EF.mulq w.a (EF.abs vz))
                               (EF.fin (w.b * |r2.coords.z|)))
                       (EF.fin (w.c * fuel_used))
    some ⟨cost, event, r2, pid1⟩

/-! ## Twiddle tuner (`tune_pid_twiddle` in `pid.c`) -/

/-- One `evaluate_pid_cost(&pid, scene, weights)` call as seen from
`tune_pid_twiddle`'s frame: `scene` is passed by value, so only the heap
rocket (pointee of `scene.object`) and `*pid` mutate; the cost is the
return value. -/
def tw_eval (sq : ℚ → ℚ) (evalFuel : ℕ) (pid : PIDc) (scene : Scene)
    (w : T3) : Option (EF × Scene × PIDc) :=
  match evaluate_pid_cost sq evalFuel pid scene w with
  | none => none
  | some res => some (res.cost, { scene with rocket := res.rocket }, res.pid)

/-- The restore statements `*(rocket_t *)scene.object =
initial_rocket_state; scene.time = initial_scene_time;` issued after every
evaluation in `tune_pid_twiddle`. -/
def tw_restore (r0 : Rocket) (t0 : ℚ) (scene : Scene) : Scene :=
  { scene with rocket := r0, time := t0 }

/-- `pid.K_p = p[0]; pid.K_i = p[1]; pid.K_d = p[2];`. -/
def tw_gains (pid : PIDc) (p : T3) : PIDc :=
  { pid with K_p := p.a, K_i := p.b, K_d := p.c }

/-- The loop state of `tune_pid_twiddle`. -/
structure TwState where
  p : T3
  dp : T3
  best : EF
  pid : PIDc
  scene : Scene
deriving DecidableEq, Repr, Inhabited

/-- The body of `tune_pid_twiddle`'s `for` loop for one coordinate `i`:
try `p[i] + dp[i]`; on strict improvement keep it and grow `dp[i]` by 1.1;
else try `p[i] - dp[i]` (the code subtracts `2 * dp[i]` from the tried
point); on strict improvement keep it and grow `dp[i]` by 1.1; else restore
`p[i]` and shrink `dp[i]` by 0.9. -/
def tw_coord (sq : ℚ → ℚ) (evalFuel : ℕ) (r0 : Rocket) (t0 : ℚ) (w : T3)
    (i : Fin 3) (st : TwState) : Option TwState :=
  let p1 := st.p.set i (st.p.get i + st.dp.get i)
  match tw_eval sq evalFuel (tw_gains st.pid p1) st.scene w with
  | none => none
  | some (err, sc1, pid2) =>
    let sc2 := tw_restore r0 t0 sc1
    if EF.lt err st.best then
      some ⟨p1, st.dp.set i (st.dp.get i * (11 / 10)), err, pid2, sc2⟩
    else
      let p2 := p1.set i (p1.get i - 2 * st.dp.get i)
      match tw_eval sq evalFuel (tw_gains pid2 p2) sc2 w with
      | none => none
      | some (err2, sc3, pid4) =>
        let sc4 := tw_restore r0 t0 sc3
        if EF.lt err2 st.best then
          some ⟨p2, st.dp.set i (st.dp.get i * (11 / 10)), err2, pid4, sc4⟩
        else
          some ⟨p2.set i (p2.get i + st.dp.get i),
                st.dp.set i (st.dp.get i * (9 / 10)), st.best, pid4, sc4⟩

/-- One full three-coordinate sweep of `tune_pid_twiddle`. -/
def tw_sweep (sq : ℚ → ℚ) (evalFuel : ℕ) (r0 : Rocket) (t0 : ℚ) (w : T3)
    (st : TwState) : Option TwState :=
  (((tw_coord sq evalFuel r0 t0 w 0 st).bind
      (tw_coord sq evalFuel r0 t0 w 1)).bind
      (tw_coord sq evalFuel r0 t0 w 2))

/-- The `while ((dp[0] + dp[1] + dp[2]) > tolerance)` loop of
`tune_pid_twiddle`. -/
def tw_loop (sq : ℚ → ℚ) (evalFuel : ℕ) (r0 : Rocket) (t0 : ℚ) (w : T3)
    (tolerance : ℚ) : ℕ → TwState → Option TwState
  | 0, st => if st.dp.sum ≤ tolerance then some st else none
  | n + 1, st =>
    if st.dp.sum ≤ tolerance then some st
    else
      match tw_sweep sq evalFuel r0 t0 w st with
      | none => none
      | some st1 => tw_loop sq evalFuel r0 t0 w tolerance n st1

/-- `tune_pid_twiddle` from `pid.c`.  Starts from `PID pid = {0}` (so
`p = [0,0,0]`), saves the baseline rocket and scene time, and returns the
tuned PID together with the simulator state as the caller sees it on
return (the by-value `scene` copy with the final heap rocket). -/
def tune_pid_twiddle (sq : ℚ → ℚ) (evalFuel loopFuel : ℕ) (scene : Scene)
    (tolerance : ℚ) (w dp0 : T3) : Option (PIDc × Scene) :=
  let pid := pidZero
  let p0 : T3 := ⟨pid.K_p, pid.K_i, pid.K_d⟩
  let r0 := scene.rocket
  let t0 := scene.time
  match tw_eval sq evalFuel pid scene w with
  | none => none
  | some (best, sc1, pid1) =>
    let sc2 := tw_restore r0 t0 sc1
    match tw_loop sq evalFuel r0 t0 w tolerance loopFuel
        ⟨p0, dp0, best, pid1, sc2⟩ with
    | none => none
    | some st => some (tw_gains st.pid st.p, st.scene)

/-! ## Logger sampling predicate (`is_almost_integer` in `utils.c`) -/

/-- The C library function `round` (nearest integer, ties away from
zero), restricted to the exact rational values the embedding uses. -/
def cRound (q : ℚ) : ℤ :=
  if 0 ≤ q then ⌊q + 1 / 2⌋ else ⌈q - 1 / 2⌉

/-- `is_almost_integer` from `utils.c`, verbatim: `n = round(x + 0.5)`,
`diff = x - n`, negate if negative, compare with the tolerance. -/
def is_almost_integer (x tolerance : ℚ) : Bool :=
  let n := cRound (x + 1 / 2)
  let diff := x - (n : ℚ)
  let diff2 := if diff < 0 then -diff else diff
  diff2 ≤ tolerance

/-- Modelled from the spec: the sampling predicate the spec describes,
`|time - round(time)| <= tolerance` with `round` the nearest-integer
rounding.  (The C source under `src/` implements `is_almost_integer`
differently; this definition follows the spec's words for comparison.) -/
def spec_almost_integer (x tolerance : ℚ) : Prop :=
  |x - (cRound x : ℚ)| ≤ tolerance

/-! ## Concrete inputs used by witnesses and counterexamples -/

/-- A concrete stand-in for the abstract `sqrt` parameter (its value is
irrelevant in every run below that uses it). -/
def sq0 : ℚ → ℚ := fun _ => 0

/-- A planet for which `calculate_g` evaluates to `1 / (1 + z)^2` exactly. -/
def planetG1 : Planet := ⟨1 / 66743000000000, 1 / 1000⟩

/-- A planet for which `calculate_g` evaluates to `100 / (1 + z)^2`. -/
def planetG100 : Planet := ⟨100 / 66743000000000, 1 / 1000⟩

/-- A rocket with 0.5 kg of fuel and a strong engine: a hoverslam probe run
from here exhausts its fuel during the first step. -/
def rocketC4 : Rocket :=
  ⟨⟨100, 1⟩, planetG1, ⟨0, 0, 0⟩, ⟨0, 0, 0⟩, ⟨0, 0, 2⟩, ⟨0, 0, mPi2⟩, 0, 1, 1 / 2, 0⟩

/-- Scene for the `velocity_at_landing` fuel-exhaustion run. -/
def sceneC4 : Scene := ⟨1, 0, rocketC4⟩

/-- A thrustless rocket that reaches the ground in one RK4 step. -/
def rocketW : Rocket :=
  ⟨⟨0, 0⟩, planetG100, ⟨0, 0, 0⟩, ⟨0, 0, 0⟩, ⟨0, 0, 1⟩, ⟨0, 0, mPi2⟩, 0, 1, 1, 0⟩

/-- Scene whose golden-section search terminates immediately under `sq0`. -/
def sceneW : Scene := ⟨1, 0, rocketW⟩

/-- A rocket already moving upward at `time = 2`: any run from here trips
the unstable detector on its first step. -/
def rocketU : Rocket :=
  ⟨⟨10, 1⟩, planetG1, ⟨0, 0, 5⟩, ⟨0, 0, 0⟩, ⟨0, 0, 10⟩, ⟨0, 0, mPi2⟩, 2, 1, 1, 0⟩

/-- Scene for the unstable-run counterexample and witnesses. -/
def sceneU : Scene := ⟨1, 2, rocketU⟩

/-- A rocket with a working engine whose zero-gain PID run free-falls to
ground contact in one step. -/
def rocketP : Rocket :=
  ⟨⟨10, 0⟩, planetG100, ⟨0, 0, 0⟩, ⟨0, 0, 0⟩, ⟨0, 0, 1⟩, ⟨0, 0, mPi2⟩, 0, 1, 1, 0⟩

/-- Scene for the PID/Twiddle witnesses. -/
def sceneP : Scene := ⟨1, 0, rocketP⟩

/-- The result of `golden_search_hoverslam sq0 2 1 sceneW 1`: with `sq0`
the bracket collapses to `[0, 0]`, both initial probes run at ignition
time 0 and the loop exits immediately. -/
def gsW : GsResult :=
  ⟨0, sceneW, 0, 0, 0, 0, .fin (443419 / 283122), .fin (443419 / 283122),
   [0, 0], 0, 0⟩

/-- The objective function the golden-section search minimizes: the value
`velocity_at_landing` returns for an ignition time, run from the (restored)
baseline scene. -/
def gs_objective (probeFuel : ℕ) (scene : Scene) (t : ℚ) : Option EF :=
  (velocity_at_landing probeFuel scene t).map ValResult.value

/-- Value-reuse invariant of the golden-section loop: the two stored
objective values are exactly the objective at the two stored interior
points. -/
def GsInv (probeFuel : ℕ) (scene : Scene) (st : GsState) : Prop :=
  gs_objective probeFuel scene st.m1 = some st.f1 ∧
  gs_objective probeFuel scene st.m2 = some st.f2

/-- A concrete Twiddle loop state on `sceneP` (gains `[0,0,0]`, step sizes
`[10,5,1]`, best cost equal to the zero-gain landing cost). -/
def twSt0 : TwState :=
  ⟨⟨0, 0, 0⟩, ⟨10, 5, 1⟩, .fin (443419 / 283122), pidZero, sceneP⟩

/-- The result of one Twiddle coordinate step on `twSt0` for `i = 0`:
neither trial improves (the zero-gain controller never fires, so every
trial has the same cost), so `p[0]` is restored and `dp[0]` shrinks to
9. -/
def twC6 : TwState :=
  ⟨⟨0, 0, 0⟩, ⟨9, 5, 1⟩, .fin (443419 / 283122),
   ⟨-10, 0, 0, 0, 0, 0, 0, 0⟩, sceneP⟩

/-- The cost Twiddle minimizes, as a function of the gains vector `p`
alone: `evaluate_pid_cost` resets the controller's integral and previous
error and never reads the stored P/I/D terms, so the cost of a trial
depends only on the gains (proved in `evaluate_pid_cost_gains`). -/
def tw_cost (sq : ℚ → ℚ) (evalFuel : ℕ) (scene : Scene) (w : T3) (p : T3) :
    Option EF :=
  (evaluate_pid_cost sq evalFuel (tw_gains pidZero p) scene w).map
    CostResult.cost

/-! ## Helper lemmas -/

lemma clamp_eq_max (f : ℚ) : (if f < 0 then 0 else f) = max 0 f := by
  rcases lt_or_le f 0 with h | h
  · simp [h, max_eq_left h.le]
  · simp [not_lt.mpr h, max_eq_right h]

lemma gs_restore_eq (saved cur : Scene) : gs_restore saved cur = saved := rfl

lemma EF.abs_pinf : EF.abs .pinf = .pinf := rfl

lemma EF.mulq_pinf_pos {w : ℚ} (h : 0 < w) : EF.mulq w .pinf = .pinf := by
  simp [EF.mulq, h]

lemma EF.add_pinf_fin (q : ℚ) : EF.add .pinf (.fin q) = .pinf := rfl

lemma gs_loop_exit (probeFuel : ℕ) (saved : Scene) (phi eps : ℚ) (n : ℕ)
    (st : GsState) (h : st.right - st.left ≤ eps) :
    gs_loop probeFuel saved phi eps n st = some st := by
  cases n <;> simp [gs_loop, h]

lemma gs_loop_count (probeFuel : ℕ) (saved : Scene) (phi eps : ℚ) :
    ∀ (n : ℕ) (st st' : GsState),
      gs_loop probeFuel saved phi eps n st = some st' →
      st.probes.length + st'.iters = st'.probes.length + st.iters := by
  intro n
  induction n with
  | zero =>
    intro st st' h
    simp only [gs_loop] at h
    split at h
    · cases h; rfl
    · cases h
  | succ n ih =>
    intro st st' h
    simp only [gs_loop] at h
    split at h
    · cases h; rfl
    · split at h
      · cases hp : velocity_at_landing probeFuel (gs_restore saved st.cur)
            (st.m2 - (st.m2 - st.left) / phi) with
        | none => rw [hp] at h; cases h
        | some res =>
          rw [hp] at h
          have := ih _ _ h
          simp only [List.length_append, List.length_cons,
            List.length_nil] at this
          omega
      · cases hp : velocity_at_landing probeFuel (gs_restore saved st.cur)
            (st.m1 + (st.right - st.m1) / phi) with
        | none => rw [hp] at h; cases h
        | some res =>
          rw [hp] at h
          have := ih _ _ h
          simp only [List.length_append, List.length_cons,
            List.length_nil] at this
          omega

lemma gs_loop_inv (probeFuel : ℕ) (saved : Scene) (phi eps : ℚ) :
    ∀ (n : ℕ) (st st' : GsState),
      gs_loop probeFuel saved phi eps n st = some st' →
      GsInv probeFuel saved st →
      GsInv probeFuel saved st' ∧ st'.right - st'.left ≤ eps := by
  intro n
  induction n with
  | zero =>
    intro st st' h hinv
    simp only [gs_loop] at h
    split at h
    · cases h; exact ⟨hinv, by assumption⟩
    · cases h
  | succ n ih =>
    intro st st' h hinv
    simp only [gs_loop] at h
    split at h
    · cases h; exact ⟨hinv, by assumption⟩
    · split at h
      · cases hp : velocity_at_landing probeFuel (gs_restore saved st.cur)
            (st.m2 - (st.m2 - st.left) / phi) with
        | none => rw [hp] at h; cases h
        | some res =>
          rw [hp] at h
          refine ih _ _ h ⟨?_, hinv.1⟩
          rw [gs_restore_eq] at hp
          simp [gs_objective, hp]
      · cases hp : velocity_at_landing probeFuel (gs_restore saved st.cur)
            (st.m1 + (st.right - st.m1) / phi) with
        | none => rw [hp] at h; cases h
        | some res =>
          rw [hp] at h
          refine ih _ _ h ⟨hinv.2, ?_⟩
          rw [gs_restore_eq] at hp
          simp [gs_objective, hp]

/-! ## Claim theorems -/

/-- C1: `golden_search_hoverslam` performs a standard golden-section
minimization of `velocity_at_landing` over the bracket
`[0, sqrt(2*z0/g0)]` with the upper end computed once from the baseline
before any probe; each loop iteration evaluates the objective at exactly
one new interior point while the retained interior value is reused (the
stored values always equal the objective at the stored points, so no point
is re-evaluated); the loop exits as soon as `right - left <= eps`; and the
bracket midpoint is returned.  The two real-number conjuncts record that
with the exact golden ratio `(1 + sqrt 5)/2` the retained interior point
coincides with the standard golden interior point of the shrunken
bracket. -/
theorem c1_golden_section (sq : ℚ → ℚ) (probeFuel loopFuel : ℕ)
    (scene : Scene) (eps : ℚ) :
    (∀ res, golden_search_hoverslam sq probeFuel loopFuel scene eps = some res →
      res.right0 = sq (scene.rocket.coords.z * 2 / calculate_g scene.rocket) ∧
      res.right - res.left ≤ eps ∧
      res.t = (res.left + res.right) / 2 ∧
      res.probes.length = 2 + res.iters ∧
      gs_objective probeFuel scene res.m1 = some res.f1 ∧
      gs_objective probeFuel scene res.m2 = some res.f2) ∧
    (∀ (phi : ℚ) (n : ℕ) (st : GsState), st.right - st.left ≤ eps →
      gs_loop probeFuel scene phi eps n st = some st) ∧
    (∀ (phi : ℚ) (n : ℕ) (st st' : GsState),
      gs_loop probeFuel scene phi eps n st = some st' →
      st.probes.length + st'.iters = st'.probes.length + st.iters) ∧
    (∀ gr l r : ℝ, gr * gr = gr + 1 → gr ≠ 0 →
      r - (r - l) / gr = l + ((l + (r - l) / gr) - l) / gr ∧
      l + (r - l) / gr = r - (r - (r - (r - l) / gr)) / gr) ∧
    ((1 + Real.sqrt 5) / 2 * ((1 + Real.sqrt 5) / 2)
        = (1 + Real.sqrt 5) / 2 + 1 ∧
     ((1 + Real.sqrt 5) / 2 : ℝ) ≠ 0) := by
  refine ⟨?_, ?_, ?_, ?_, ?_, ?_⟩
  · intro res hres
    simp only [golden_search_hoverslam] at hres
    split at hres
    · cases hres
    rename_i res1 hp1
    rw [gs_restore_eq] at hres
    split at hres
    · cases hres
    rename_i res2 hp2
    split at hres
    · cases hres
    rename_i stf hl
    cases hres
    have hinv0 : GsInv probeFuel scene
        ⟨0, sq (scene.rocket.coords.z * 2 / calculate_g scene.rocket),
         sq (scene.rocket.coords.z * 2 / calculate_g scene.rocket)
           - (sq (scene.rocket.coords.z * 2 / calculate_g scene.rocket) - 0)
             / ((1 + sq 5) / 2),
         0 + (sq (scene.rocket.coords.z * 2 / calculate_g scene.rocket) - 0)
           / ((1 + sq 5) / 2),
         res1.value, res2.value, gs_restore scene res2.scene,
         [sq (scene.rocket.coords.z * 2 / calculate_g scene.rocket)
           - (sq (scene.rocket.coords.z * 2 / calculate_g scene.rocket) - 0)
             / ((1 + sq 5) / 2),
          0 + (sq (scene.rocket.coords.z * 2 / calculate_g scene.rocket) - 0)
           / ((1 + sq 5) / 2)], 0⟩ := by
      constructor
      · simp only [gs_objective, hp1, Option.map_some']
      · simp only [gs_objective, hp2, Option.map_some']
    have hmain := gs_loop_inv probeFuel scene ((1 + sq 5) / 2) eps
      loopFuel _ _ hl hinv0
    have hcount := gs_loop_count probeFuel scene ((1 + sq 5) / 2) eps
      loopFuel _ _ hl
    simp only [List.length_cons, List.length_nil] at hcount
    refine ⟨rfl, hmain.2, rfl, ?_, hmain.1.1, hmain.1.2⟩
    show stf.probes.length = 2 + stf.iters
    omega
  · intro phi n st h
    exact gs_loop_exit probeFuel scene phi eps n st h
  · intro phi n st st' h
    exact gs_loop_count probeFuel scene phi eps n st st' h
  · intro gr l r hg hne
    have hdiv : ∀ x : ℝ, x / gr = x * (gr - 1) := by
      intro x
      rw [div_eq_iff hne]
      linear_combination (-x) * hg
    constructor
    · simp only [hdiv]
      linear_combination (-(r - l)) * hg
    · simp only [hdiv]
      linear_combination (r - l) * hg
  · have h5 : Real.sqrt 5 ^ 2 = 5 := Real.sq_sqrt (by norm_num)
    linear_combination (1 / 4 : ℝ) * h5
  · intro hz
    have h5nn : 0 ≤ Real.sqrt 5 := Real.sqrt_nonneg 5
    linarith

lemma T3.get_set (v : T3) (i : Fin 3) (q : ℚ) : (v.set i q).get i = q := by
  fin_cases i <;> cases v <;> rfl

lemma T3.set_set (v : T3) (i : Fin 3) (a b : ℚ) :
    (v.set i a).set i b = v.set i b := by
  fin_cases i <;> cases v <;> rfl

lemma T3.set_get_self (v : T3) (i : Fin 3) : v.set i (v.get i) = v := by
  fin_cases i <;> cases v <;> rfl

lemma pid_calculate_thrust_gains (sq : ℚ → ℚ) (pid1 pid2 : PIDc)
    (r : Rocket) (dt : ℚ)
    (hp : pid1.K_p = pid2.K_p) (hi : pid1.K_i = pid2.K_i)
    (hd : pid1.K_d = pid2.K_d) (hint : pid1.integral = pid2.integral)
    (hprev : pid1.prev_err = pid2.prev_err) :
    pid_calculate_thrust sq pid1 r dt = pid_calculate_thrust sq pid2 r dt := by
  cases pid1
  cases pid2
  simp_all [pid_calculate_thrust]

lemma epc_loop_gains (sq : ℚ → ℚ) (n : ℕ) (pid1 pid2 : PIDc) (scene : Scene)
    (hp : pid1.K_p = pid2.K_p) (hi : pid1.K_i = pid2.K_i)
    (hd : pid1.K_d = pid2.K_d) (hint : pid1.integral = pid2.integral)
    (hprev : pid1.prev_err = pid2.prev_err) :
    epc_loop sq n pid1 scene = epc_loop sq n pid2 scene := by
  cases n with
  | zero => rfl
  | succ n =>
    simp only [epc_loop]
    rw [pid_calculate_thrust_gains sq pid1 pid2 scene.rocket scene.dt
      hp hi hd hint hprev]

lemma evaluate_pid_cost_gains (sq : ℚ → ℚ) (fuel : ℕ) (pid1 pid2 : PIDc)
    (scene : Scene) (w : T3)
    (hp : pid1.K_p = pid2.K_p) (hi : pid1.K_i = pid2.K_i)
    (hd : pid1.K_d = pid2.K_d) :
    evaluate_pid_cost sq fuel pid1 scene w
      = evaluate_pid_cost sq fuel pid2 scene w := by
  simp only [evaluate_pid_cost]
  rw [epc_loop_gains sq fuel { pid1 with integral := 0, prev_err := 0 }
    { pid2 with integral := 0, prev_err := 0 } scene hp hi hd rfl rfl]

lemma tw_eval_cost (sq : ℚ → ℚ) (ef : ℕ) (scene : Scene) (w : T3)
    (pid : PIDc) (p : T3) (c : EF) (sc' : Scene) (p' : PIDc)
    (h : tw_eval sq ef (tw_gains pid p) scene w = some (c, sc', p')) :
    tw_cost sq ef scene w p = some c := by
  simp only [tw_eval] at h
  split at h
  · cases h
  rename_i res heval
  cases h
  unfold tw_cost
  rw [evaluate_pid_cost_gains sq ef (tw_gains pidZero p) (tw_gains pid p)
    scene w rfl rfl rfl, heval]
  rfl

lemma tw_eval_scene (sq : ℚ → ℚ) (ef : ℕ) (pid : PIDc) (scene : Scene)
    (w : T3) (c : EF) (sc' : Scene) (p' : PIDc)
    (h : tw_eval sq ef pid scene w = some (c, sc', p')) :
    sc'.dt = scene.dt ∧ sc'.time = scene.time := by
  simp only [tw_eval] at h
  split at h
  · cases h
  · cases h; exact ⟨rfl, rfl⟩

lemma tw_coord_scene (sq : ℚ → ℚ) (ef : ℕ) (r0 : Rocket) (t0 : ℚ) (w : T3)
    (i : Fin 3) (st st' : TwState)
    (h : tw_coord sq ef r0 t0 w i st = some st') :
    st'.scene = ⟨st.scene.dt, t0, r0⟩ := by
  simp only [tw_coord] at h
  split at h
  · cases h
  rename_i err sc1 pid2 heval1
  have h1 := tw_eval_scene _ _ _ _ _ _ _ _ heval1
  split at h
  · cases h
    show tw_restore r0 t0 sc1 = _
    simp [tw_restore, h1.1]
  · split at h
    · cases h
    rename_i err2 sc3 pid4 heval2
    have h2 := tw_eval_scene _ _ _ _ _ _ _ _ heval2
    have h2dt : sc3.dt = st.scene.dt := by
      rw [h2.1]; show (tw_restore r0 t0 sc1).dt = _; simp [tw_restore, h1.1]
    split at h
    · cases h
      show tw_restore r0 t0 sc3 = _
      simp [tw_restore, h2dt]
    · cases h
      show tw_restore r0 t0 sc3 = _
      simp [tw_restore, h2dt]

lemma tw_sweep_scene (sq : ℚ → ℚ) (ef : ℕ) (r0 : Rocket) (t0 : ℚ) (w : T3)
    (st st' : TwState) (h : tw_sweep sq ef r0 t0 w st = some st') :
    st'.scene = ⟨st.scene.dt, t0, r0⟩ := by
  simp only [tw_sweep] at h
  cases h0 : tw_coord sq ef r0 t0 w 0 st with
  | none => rw [h0] at h; cases h
  | some st1 =>
    rw [h0, Option.some_bind] at h
    cases h1 : tw_coord sq ef r0 t0 w 1 st1 with
    | none => rw [h1] at h; cases h
    | some st2 =>
      rw [h1, Option.some_bind] at h
      have e0 := tw_coord_scene _ _ _ _ _ _ _ _ h0
      have e1 := tw_coord_scene _ _ _ _ _ _ _ _ h1
      have e2 := tw_coord_scene _ _ _ _ _ _ _ _ h
      rw [e2, e1, e0]

lemma tw_loop_scene (sq : ℚ → ℚ) (ef : ℕ) (r0 : Rocket) (t0 d : ℚ) (w : T3)
    (tol : ℚ) : ∀ (n : ℕ) (st st' : TwState),
    tw_loop sq ef r0 t0 w tol n st = some st' →
    st.scene = ⟨d, t0, r0⟩ → st'.scene = ⟨d, t0, r0⟩ := by
  intro n
  induction n with
  | zero =>
    intro st st' h hst
    simp only [tw_loop] at h
    split at h
    · cases h; exact hst
    · cases h
  | succ n ih =>
    intro st st' h hst
    simp only [tw_loop] at h
    split at h
    · cases h; exact hst
    · split at h
      · cases h
      rename_i st1 hsw
      have e := tw_sweep_scene _ _ _ _ _ _ _ hsw
      exact ih st1 st' h (by rw [e, hst])

lemma tw_loop_tol (sq : ℚ → ℚ) (ef : ℕ) (r0 : Rocket) (t0 : ℚ) (w : T3)
    (tol : ℚ) : ∀ (n : ℕ) (st st' : TwState),
    tw_loop sq ef r0 t0 w tol n st = some st' → st'.dp.sum ≤ tol := by
  intro n
  induction n with
  | zero =>
    intro st st' h
    simp only [tw_loop] at h
    split at h
    · cases h; assumption
    · cases h
  | succ n ih =>
    intro st st' h
    simp only [tw_loop] at h
    split at h
    · cases h; assumption
    · split at h
      · cases h
      · exact ih _ _ h

/-- C6: `tune_pid_twiddle` starts from gains `p = [0,0,0]` and performs
coordinate-wise hill climbing: for coordinate `i` it tries
`p[i] + dp[i]`; on strict cost improvement it keeps the change and grows
`dp[i]` by 1.1; otherwise it tries `p[i] - dp[i]` (a net change of
`-2*dp[i]` from the tried point); on strict improvement it keeps it and
grows `dp[i]` by 1.1; otherwise it restores `p[i]` exactly and shrinks
`dp[i]` by 0.9.  Sweeps repeat exactly while `dp[0]+dp[1]+dp[2] >
tolerance`, and the final `p` is returned as the tuned gains. -/
theorem c6_twiddle (sq : ℚ → ℚ) (evalFuel sweepFuel : ℕ) (scene : Scene)
    (tolerance : ℚ) (w dp0 : T3) :
    (tune_pid_twiddle sq evalFuel sweepFuel scene tolerance w dp0
      = (tw_eval sq evalFuel pidZero scene w).bind (fun b =>
          (tw_loop sq evalFuel scene.rocket scene.time w tolerance sweepFuel
            ⟨⟨0, 0, 0⟩, dp0, b.1, b.2.2,
             tw_restore scene.rocket scene.time b.2.1⟩).map
            (fun st => (tw_gains st.pid st.p, st.scene)))) ∧
    (pidZero.K_p = 0 ∧ pidZero.K_i = 0 ∧ pidZero.K_d = 0) ∧
    (∀ (n : ℕ) (st : TwState), st.dp.sum ≤ tolerance →
      tw_loop sq evalFuel scene.rocket scene.time w tolerance n st = some st) ∧
    (∀ (n : ℕ) (st st' : TwState),
      tw_loop sq evalFuel scene.rocket scene.time w tolerance n st = some st' →
      st'.dp.sum ≤ tolerance) ∧
    (∀ (i : Fin 3) (st st' : TwState) (cPlus : EF),
      st.scene = scene →
      tw_coord sq evalFuel scene.rocket scene.time w i st = some st' →
      tw_cost sq evalFuel scene w (st.p.set i (st.p.get i + st.dp.get i))
        = some cPlus →
      ((EF.lt cPlus st.best = true →
          st'.p = st.p.set i (st.p.get i + st.dp.get i) ∧
          st'.best = cPlus ∧
          st'.dp = st.dp.set i (st.dp.get i * (11 / 10))) ∧
       (EF.lt cPlus st.best = false →
          ∀ cMinus,
            tw_cost sq evalFuel scene w
              (st.p.set i (st.p.get i - st.dp.get i)) = some cMinus →
            ((EF.lt cMinus st.best = true →
                st'.p = st.p.set i (st.p.get i - st.dp.get i) ∧
                st'.best = cMinus ∧
                st'.dp = st.dp.set i (st.dp.get i * (11 / 10))) ∧
             (EF.lt cMinus st.best = false →
                st'.p = st.p ∧ st'.best = st.best ∧
                st'.dp = st.dp.set i (st.dp.get i * (9 / 10))))))) := by
  refine ⟨?_, ⟨rfl, rfl, rfl⟩, ?_, ?_, ?_⟩
  · simp only [tune_pid_twiddle,
      show (⟨pidZero.K_p, pidZero.K_i, pidZero.K_d⟩ : T3) = ⟨0, 0, 0⟩ from rfl]
    cases heval : tw_eval sq evalFuel pidZero scene w with
    | none => rfl
    | some b =>
      obtain ⟨best, sc1, pid1⟩ := b
      simp only [Option.some_bind]
      cases hloop : tw_loop sq evalFuel scene.rocket scene.time w tolerance
          sweepFuel ⟨⟨0, 0, 0⟩, dp0, best, pid1,
            tw_restore scene.rocket scene.time sc1⟩ with
      | none => rfl
      | some st => rfl
  · intro n st h
    cases n <;> simp [tw_loop, h]
  · exact tw_loop_tol sq evalFuel scene.rocket scene.time w tolerance
  · intro i st st' cPlus hscene hcoord hcplus
    simp only [tw_coord] at hcoord
    rw [hscene] at hcoord
    split at hcoord
    · cases hcoord
    rename_i err sc1 pid2 heval1
    have hc1 := tw_eval_cost sq evalFuel scene w st.pid
      (st.p.set i (st.p.get i + st.dp.get i)) err sc1 pid2 heval1
    rw [hcplus] at hc1
    obtain rfl : cPlus = err := Option.some.inj hc1
    have hsc1 := tw_eval_scene sq evalFuel
      (tw_gains st.pid (st.p.set i (st.p.get i + st.dp.get i))) scene w
      cPlus sc1 pid2 heval1
    split at hcoord
    · rename_i hlt
      cases hcoord
      constructor
      · intro _
        exact ⟨rfl, rfl, rfl⟩
      · intro hfalse
        rw [hlt] at hfalse
        cases hfalse
    · rename_i hlt
      have hltf : EF.lt cPlus st.best = false := Bool.not_eq_true _ |>.mp hlt
      have hp2 : (st.p.set i (st.p.get i + st.dp.get i)).set i
          ((st.p.set i (st.p.get i + st.dp.get i)).get i - 2 * st.dp.get i)
          = st.p.set i (st.p.get i - st.dp.get i) := by
        rw [T3.get_set, T3.set_set]
        congr 1
        ring
      have hsc2 : tw_restore scene.rocket scene.time sc1 = scene := by
        show Scene.mk sc1.dt scene.time scene.rocket = scene
        rw [hsc1.1]
      rw [hp2, hsc2] at hcoord
      split at hcoord
      · cases hcoord
      rename_i err2 sc3 pid4 heval2
      have hc2 := tw_eval_cost sq evalFuel scene w pid2
        (st.p.set i (st.p.get i - st.dp.get i)) err2 sc3 pid4 heval2
      constructor
      · intro htrue
        rw [htrue] at hltf
        cases hltf
      · intro _ cMinus hcminus
        rw [hcminus] at hc2
        obtain rfl : cMinus = err2 := Option.some.inj hc2
        split at hcoord
        · rename_i hlt2
          cases hcoord
          constructor
          · intro _
            exact ⟨rfl, rfl, rfl⟩
          · intro hfalse
            rw [hlt2] at hfalse
            cases hfalse
        · rename_i hlt2
          have hltf2 : EF.lt cMinus st.best = false :=
            Bool.not_eq_true _ |>.mp hlt2
          cases hcoord
          constructor
          · intro htrue
            rw [htrue] at hltf2
            cases hltf2
          · intro _
            refine ⟨?_, rfl, rfl⟩
            show (st.p.set i (st.p.get i - st.dp.get i)).set i
              ((st.p.set i (st.p.get i - st.dp.get i)).get i + st.dp.get i)
              = st.p
            rw [T3.get_set, T3.set_set]
            have hq : st.p.get i - st.dp.get i + st.dp.get i = st.p.get i := by
              ring
            rw [hq, T3.set_get_self]

/-- C8: `golden_search_hoverslam` and `tune_pid_twiddle` isolate their
probe/evaluation runs from the baseline: on return from either optimizer,
the simulated rocket state (the pointee of `scene->object`), the scene
time, and `dt` equal their values at entry, even though each candidate
evaluation runs a full simulation on that state. -/
theorem c8_baseline_isolation (sq : ℚ → ℚ)
    (probeFuel loopFuel evalFuel sweepFuel : ℕ) (scene : Scene)
    (eps tolerance : ℚ) (w dp0 : T3) :
    (∀ res, golden_search_hoverslam sq probeFuel loopFuel scene eps = some res →
      res.scene.rocket = scene.rocket ∧ res.scene.time = scene.time ∧
      res.scene.dt = scene.dt) ∧
    (∀ pid' sc',
      tune_pid_twiddle sq evalFuel sweepFuel scene tolerance w dp0
        = some (pid', sc') →
      sc'.rocket = scene.rocket ∧ sc'.time = scene.time ∧
      sc'.dt = scene.dt) := by
  constructor
  · intro res hres
    simp only [golden_search_hoverslam] at hres
    split at hres
    · cases hres
    split at hres
    · cases hres
    split at hres
    · cases hres
    cases hres
    exact ⟨rfl, rfl, rfl⟩
  · intro pid' sc' h
    simp only [tune_pid_twiddle] at h
    split at h
    · cases h
    rename_i best sc1 pid1 heval1
    have h1 := tw_eval_scene _ _ _ _ _ _ _ _ heval1
    split at h
    · cases h
    rename_i st hloop
    cases h
    have hst := tw_loop_scene sq evalFuel scene.rocket scene.time scene.dt w
      tolerance sweepFuel _ _ hloop
      (by show tw_restore scene.rocket scene.time sc1 = _
          simp [tw_restore, h1.1])
    rw [hst]
    exact ⟨rfl, rfl, rfl⟩

/-- C5 (amended): for every run ending with the Unstable event the
returned landing speed is the `+inf` sentinel: `velocity_at_landing`
returns `+inf`, and `evaluate_pid_cost` returns `+inf` whenever
`weights[0] > 0` (with `weights[0] = 0` the IEEE product `0 * inf` makes
the cost NaN instead — see the counterexample). -/
theorem c5_unstable_infinity (sq : ℚ → ℚ) (fuel : ℕ) (scene : Scene)
    (ign : ℚ) (pid0 : PIDc) (w : T3) :
    (∀ res, velocity_at_landing fuel scene ign = some res →
      res.event = .ev_unstable → res.value = .pinf) ∧
    (∀ res, evaluate_pid_cost sq fuel pid0 scene w = some res →
      res.event = .ev_unstable → 0 < w.a → res.cost = .pinf) := by
  constructor
  · intro res hres hev
    simp only [velocity_at_landing] at hres
    split at hres
    · cases hres
    rename_i scene1 prev event tr hloop
    cases hres
    have hev' : event = .ev_unstable := hev
    subst hev'
    simp [unstable_vz, EF.abs]
  · intro res hres hev hw
    simp only [evaluate_pid_cost] at hres
    split at hres
    · cases hres
    rename_i scene1 prev event pid1 hloop
    cases hres
    have hev' : event = .ev_unstable := hev
    subst hev'
    simp [unstable_vz, EF.abs, EF.mulq_pinf_pos hw, EF.add_pinf_fin]

/-- C2: In `update_status_rk4`, each of the three stage sub-states
(`r_k2`, `r_k3`, `r_k4`) clamps its own `fuel_mass` to `>= 0` before the
next force evaluation, while the final per-step fuel update subtracts
`initial_state.engine.consumption * initial_state.thrust_percent * dt` —
the step-initial consumption rate applied over the whole `dt`, not a
stage-weighted rate — and then clamps the result to `>= 0`.  The last
conjunct records that the stage accelerations entering the combined
velocity update are evaluated at exactly these clamped stage states. -/
theorem c2_rk4_fuel_policy (dt : ℚ) (r : Rocket) (nd : Vec3) :
    (∀ v a : Vec3, (rk4_k2 r dt v a).fuel_mass
        = max 0 (r.fuel_mass - r.engine.consumption * r.thrust_percent * (dt / 2))
        ∧ 0 ≤ (rk4_k2 r dt v a).fuel_mass) ∧
    (∀ v a : Vec3, (rk4_k3 r dt v a).fuel_mass
        = max 0 (r.fuel_mass - r.engine.consumption * r.thrust_percent * (dt / 2))
        ∧ 0 ≤ (rk4_k3 r dt v a).fuel_mass) ∧
    (∀ v a : Vec3, (rk4_k4 r dt v a).fuel_mass
        = max 0 (r.fuel_mass - r.engine.consumption * r.thrust_percent * dt)
        ∧ 0 ≤ (rk4_k4 r dt v a).fuel_mass) ∧
    (update_status_rk4 dt r nd).fuel_mass
        = max 0 (r.fuel_mass - r.engine.consumption * r.thrust_percent * dt) ∧
    0 ≤ (update_status_rk4 dt r nd).fuel_mass ∧
    (let r0 := { r with directions := nd }
     let a1 := calculate_forces r0
     let k2 := rk4_k2 r0 dt r0.velocity a1
     let a2 := calculate_forces k2
     let k3 := rk4_k3 r0 dt k2.velocity a2
     let a3 := calculate_forces k3
     let k4 := rk4_k4 r0 dt k3.velocity a3
     let a4 := calculate_forces k4
     (update_status_rk4 dt r nd).velocity.z
        = r.velocity.z + (dt / 6) * (a1.z + 2 * a2.z + 2 * a3.z + a4.z)) := by
  refine ⟨fun v a => ⟨?_, ?_⟩, fun v a => ⟨?_, ?_⟩, fun v a => ⟨?_, ?_⟩, ?_, ?_, ?_⟩
  · simp only [rk4_k2, clamp_eq_max]
  · simp only [rk4_k2, clamp_eq_max]; exact le_max_left _ _
  · simp only [rk4_k3, clamp_eq_max]
  · simp only [rk4_k3, clamp_eq_max]; exact le_max_left _ _
  · simp only [rk4_k4, clamp_eq_max]
  · simp only [rk4_k4, clamp_eq_max]; exact le_max_left _ _
  · simp only [update_status_rk4, clamp_eq_max]
  · simp only [update_status_rk4, clamp_eq_max]; exact le_max_left _ _
  · rfl

/-- C3: For a GroundContact event with `previous.z > 0` and
`current.z <= 0`, `hoverslam_event_interpolator` sets
`alpha = previous.z / (previous.z - current.z) ∈ [0, 1]`, replaces time by
`previous.time + alpha * dt` and x, y, the three velocity components and
`fuel_mass` by the corresponding alpha-linear blends, and forces
`coords.z = 0` exactly; any other event changes nothing; and at
`previous.z = 1`, `current.z = -1` every interpolated quantity is the
exact midpoint. -/
theorem c3_interpolator (dt : ℚ) (prev cur : Rocket) :
    (∀ e, e ≠ EventT.ev_ground_contact →
        hoverslam_event_interpolator dt prev cur e = cur) ∧
    (0 < prev.coords.z → cur.coords.z ≤ 0 →
      let alpha := prev.coords.z / (prev.coords.z - cur.coords.z)
      let ri := hoverslam_event_interpolator dt prev cur .ev_ground_contact
      0 ≤ alpha ∧ alpha ≤ 1 ∧
      ri.time = prev.time + alpha * dt ∧
      ri.coords.x = prev.coords.x + alpha * (cur.coords.x - prev.coords.x) ∧
      ri.coords.y = prev.coords.y + alpha * (cur.coords.y - prev.coords.y) ∧
      ri.velocity.x = prev.velocity.x + alpha * (cur.velocity.x - prev.velocity.x) ∧
      ri.velocity.y = prev.velocity.y + alpha * (cur.velocity.y - prev.velocity.y) ∧
      ri.velocity.z = prev.velocity.z + alpha * (cur.velocity.z - prev.velocity.z) ∧
      ri.fuel_mass = prev.fuel_mass + alpha * (cur.fuel_mass - prev.fuel_mass) ∧
      ri.coords.z = 0) ∧
    (prev.coords.z = 1 → cur.coords.z = -1 → cur.time = prev.time + dt →
      let ri := hoverslam_event_interpolator dt prev cur .ev_ground_contact
      prev.coords.z / (prev.coords.z - cur.coords.z) = 1 / 2 ∧
      ri.time = (prev.time + cur.time) / 2 ∧
      ri.coords.x = (prev.coords.x + cur.coords.x) / 2 ∧
      ri.coords.y = (prev.coords.y + cur.coords.y) / 2 ∧
      ri.velocity.x = (prev.velocity.x + cur.velocity.x) / 2 ∧
      ri.velocity.y = (prev.velocity.y + cur.velocity.y) / 2 ∧
      ri.velocity.z = (prev.velocity.z + cur.velocity.z) / 2 ∧
      ri.fuel_mass = (prev.fuel_mass + cur.fuel_mass) / 2 ∧
      ri.coords.z = 0) := by
  refine ⟨fun e he => by simp [hoverslam_event_interpolator, he], ?_, ?_⟩
  · intro hp hc
    have hd : 0 < prev.coords.z - cur.coords.z := by linarith
    refine ⟨div_nonneg hp.le hd.le, (div_le_one hd).mpr (by linarith),
      rfl, rfl, rfl, rfl, rfl, rfl, ?_, rfl⟩
    show prev.fuel_mass - _ * (prev.fuel_mass - cur.fuel_mass) = _
    ring
  · intro hp hc ht
    have h2 : prev.coords.z / (prev.coords.z - cur.coords.z) = 1 / 2 := by
      rw [hp, hc]; norm_num
    refine ⟨h2, ?_, ?_, ?_, ?_, ?_, ?_, ?_, rfl⟩
    · show prev.time + prev.coords.z / (prev.coords.z - cur.coords.z) * dt = _
      rw [h2, ht]; ring
    · show prev.coords.x + prev.coords.z / (prev.coords.z - cur.coords.z)
          * (cur.coords.x - prev.coords.x) = _
      rw [h2]; ring
    · show prev.coords.y + prev.coords.z / (prev.coords.z - cur.coords.z)
          * (cur.coords.y - prev.coords.y) = _
      rw [h2]; ring
    · show prev.velocity.x + prev.coords.z / (prev.coords.z - cur.coords.z)
          * (cur.velocity.x - prev.velocity.x) = _
      rw [h2]; ring
    · show prev.velocity.y + prev.coords.z / (prev.coords.z - cur.coords.z)
          * (cur.velocity.y - prev.velocity.y) = _
      rw [h2]; ring
    · show prev.velocity.z + prev.coords.z / (prev.coords.z - cur.coords.z)
          * (cur.velocity.z - prev.velocity.z) = _
      rw [h2]; ring
    · show prev.fuel_mass - prev.coords.z / (prev.coords.z - cur.coords.z)
          * (prev.fuel_mass - cur.fuel_mass) = _
      rw [h2]; ring

/-- C3 witness: the interpolator theorem applied to a concrete state pair
with `previous.z = 1`, `current.z = -1`. -/
theorem c3_interpolator_witness :
    (hoverslam_event_interpolator 1
      ⟨⟨0, 0⟩, planetG1, ⟨2, 4, -6⟩, ⟨0, 0, 0⟩, ⟨10, 20, 1⟩, ⟨0, 0, 0⟩, 3, 1, 8, 0⟩
      ⟨⟨0, 0⟩, planetG1, ⟨4, 6, -8⟩, ⟨0, 0, 0⟩, ⟨12, 24, -1⟩, ⟨0, 0, 0⟩, 4, 1, 6, 0⟩
      .ev_ground_contact).fuel_mass = (8 + 6) / 2 := by
  have h := (c3_interpolator 1
      ⟨⟨0, 0⟩, planetG1, ⟨2, 4, -6⟩, ⟨0, 0, 0⟩, ⟨10, 20, 1⟩, ⟨0, 0, 0⟩, 3, 1, 8, 0⟩
      ⟨⟨0, 0⟩, planetG1, ⟨4, 6, -8⟩, ⟨0, 0, 0⟩, ⟨12, 24, -1⟩, ⟨0, 0, 0⟩, 4, 1, 6, 0⟩).2.2
      (by norm_num) (by norm_num) (by norm_num)
  exact h.2.2.2.2.2.2.2.1

/-- C7: one call to `pid_calculate_thrust` computes
`target_velocity = -sqrt(2 * g(z) * z)`, `error = target - velocity.z`,
adds `error * dt` to the integral, computes the stored P/I/D terms, clamps
`K_p*error + K_i*integral + K_d*derivative` to `[0, engine.thrust]`, stores
`error` as `prev_err`, and returns the clamped value divided by
`engine.thrust`; for `engine.thrust > 0` the throttle lies in `[0, 1]`. -/
theorem c7_pid_thrust (sq : ℚ → ℚ) (pid : PIDc) (r : Rocket) (dt : ℚ) :
    (let tv := -(sq (2 * calculate_g r * r.coords.z))
     let err := tv - r.velocity.z
     let res := pid_calculate_thrust sq pid r dt
     res.1.K_p = pid.K_p ∧ res.1.K_i = pid.K_i ∧ res.1.K_d = pid.K_d ∧
     res.1.integral = pid.integral + err * dt ∧
     res.1.prev_err = err ∧
     res.1.P = pid.K_p * err ∧
     res.1.I = pid.K_i * (pid.integral + err * dt) ∧
     res.1.D = pid.K_d * (err - pid.prev_err) / dt ∧
     res.2 = max 0 (min (pid.K_p * err + pid.K_i * (pid.integral + err * dt)
                          + pid.K_d * (err - pid.prev_err) / dt)
                        r.engine.thrust) / r.engine.thrust ∧
     0 ≤ max 0 (min (pid.K_p * err + pid.K_i * (pid.integral + err * dt)
                      + pid.K_d * (err - pid.prev_err) / dt) r.engine.thrust) ∧
     (0 < r.engine.thrust →
       max 0 (min (pid.K_p * err + pid.K_i * (pid.integral + err * dt)
                    + pid.K_d * (err - pid.prev_err) / dt) r.engine.thrust)
         ≤ r.engine.thrust)) ∧
    (0 < r.engine.thrust →
      0 ≤ (pid_calculate_thrust sq pid r dt).2 ∧
      (pid_calculate_thrust sq pid r dt).2 ≤ 1) := by
  constructor
  · refine ⟨rfl, rfl, rfl, rfl, rfl, rfl, rfl, rfl, rfl, le_max_left _ _, ?_⟩
    intro hT
    exact max_le hT.le (min_le_right _ _)
  · intro hT
    constructor
    · exact div_nonneg (le_max_left _ _) hT.le
    · exact (div_le_one hT).mpr (max_le hT.le (min_le_right _ _))

/-- C7 witness: the throttle-range conclusion at a concrete PID state and
rocket with positive engine thrust. -/
theorem c7_pid_thrust_witness :
    0 ≤ (pid_calculate_thrust sq0 pidZero rocketP 1).2 ∧
    (pid_calculate_thrust sq0 pidZero rocketP 1).2 ≤ 1 :=
  (c7_pid_thrust sq0 pidZero rocketP 1).2 (by norm_num [rocketP])

/-- C10: `ground_contact_detector` returns only `EV_NONE`,
`EV_GROUND_CONTACT` or `EV_UNSTABLE` (never the declared `EV_OUT_OF_FUEL`
or `EV_CUSTOM`), and the ground-contact test takes precedence over the
instability test: when both trigger, the outcome is ground contact and
`current.velocity.z` is left unchanged rather than poisoned. -/
theorem c10_detector_range_and_precedence (cur prev : Rocket) :
    (ground_contact_detector cur prev = .ev_none ∨
     ground_contact_detector cur prev = .ev_ground_contact ∨
     ground_contact_detector cur prev = .ev_unstable) ∧
    ground_contact_detector cur prev ≠ .ev_out_of_fuel ∧
    ground_contact_detector cur prev ≠ .ev_custom ∧
    (cur.coords.z ≤ 0 → 0 < prev.coords.z → 0 < cur.velocity.z → 1 < cur.time →
      ground_contact_detector cur prev = .ev_ground_contact ∧
      unstable_vz cur (ground_contact_detector cur prev) = .fin cur.velocity.z) := by
  unfold ground_contact_detector
  refine ⟨?_, ?_, ?_, ?_⟩
  · split
    · exact Or.inr (Or.inl rfl)
    · split
      · exact Or.inr (Or.inr rfl)
      · exact Or.inl rfl
  · split
    · simp
    · split <;> simp
  · split
    · simp
    · split <;> simp
  · intro h1 h2 _ _
    rw [if_pos ⟨h1, h2⟩]
    exact ⟨rfl, rfl⟩

/-- C10 witness: the precedence conclusion at a concrete state pair where
both the ground-contact and the instability conditions hold. -/
theorem c10_detector_witness :
    ground_contact_detector
        ⟨⟨0, 0⟩, planetG1, ⟨0, 0, 2⟩, ⟨0, 0, 0⟩, ⟨0, 0, -1⟩, ⟨0, 0, 0⟩, 3, 1, 1, 0⟩
        rocketW = .ev_ground_contact ∧
    unstable_vz
        ⟨⟨0, 0⟩, planetG1, ⟨0, 0, 2⟩, ⟨0, 0, 0⟩, ⟨0, 0, -1⟩, ⟨0, 0, 0⟩, 3, 1, 1, 0⟩
        (ground_contact_detector
          ⟨⟨0, 0⟩, planetG1, ⟨0, 0, 2⟩, ⟨0, 0, 0⟩, ⟨0, 0, -1⟩, ⟨0, 0, 0⟩, 3, 1, 1, 0⟩
          rocketW) = .fin 2 :=
  (c10_detector_range_and_precedence
      ⟨⟨0, 0⟩, planetG1, ⟨0, 0, 2⟩, ⟨0, 0, 0⟩, ⟨0, 0, -1⟩, ⟨0, 0, 0⟩, 3, 1, 1, 0⟩
      rocketW).2.2.2 (by norm_num) (by norm_num [rocketW]) (by norm_num)
      (by norm_num)

/-- C9: the claim states `is_almost_integer(t, 0.01)` holds iff
`|t - round(t)| <= 0.01`.  The code computes `n = round(x + 0.5)` instead
of `round(x)`: at the exact integer second `t = 1` the code returns
`false` while the spec predicate holds (so the logger never samples at
exact integer times). -/
theorem c9_sampling_predicate_bug :
    is_almost_integer 1 (1 / 100) = false ∧ spec_almost_integer 1 (1 / 100) := by
  constructor
  · norm_num [is_almost_integer, cRound]
  · show |(1 : ℚ) - (cRound 1 : ℚ)| ≤ 1 / 100
    norm_num [cRound]

/-- C4: the claim says a probe run commands full thrust only while fuel
remains and that thrust stays 0 after fuel exhaustion.  Evaluating
`velocity_at_landing` on `sceneC4` (ignition time 0) shows the opposite:
the first recorded pre-step state burns the last fuel
(`fuel_mass = 1/2`, `thrust_percent = 1`), and the second recorded
pre-step state again has `thrust_percent = 1` with `fuel_mass = 0` —
`velocity_at_landing` has no `fuel_mass > 0` guard, unlike the committed
hoverslam loop and the PID loop. -/
theorem c4_probe_reignites_with_zero_fuel :
    (velocity_at_landing 3 sceneC4 0).map
        (fun res => res.commanded.map (fun r => (r.fuel_mass, r.thrust_percent)))
      = some [(1 / 2, 1), (0, 1)] ∧
    (velocity_at_landing 3 sceneC4 0).map ValResult.event
      = some EventT.ev_unstable := by
  constructor <;>
    norm_num [velocity_at_landing, val_loop, take_step, update_status_rk4,
      rk4_k2, rk4_k3, rk4_k4, calculate_forces, calculate_g, full_mass,
      current_thrust, ground_contact_detector, sceneC4, rocketC4, planetG1,
      Gconst, hoverslam_event_interpolator, unstable_vz, EF.abs]

/-- C5 counterexample: a run of `evaluate_pid_cost` that ends Unstable
with the non-negative weights vector `(0, 1, 1)` yields cost NaN
(`0 * inf`), not `+inf`, refuting the claim for every non-negative
weights vector. -/
theorem c5_counterexample_zero_weight_nan :
    (evaluate_pid_cost sq0 2 pidZero sceneU ⟨0, 1, 1⟩).map CostResult.event
      = some EventT.ev_unstable ∧
    (evaluate_pid_cost sq0 2 pidZero sceneU ⟨0, 1, 1⟩).map CostResult.cost
      = some EF.nan ∧
    ¬ ((evaluate_pid_cost sq0 2 pidZero sceneU ⟨0, 1, 1⟩).map CostResult.cost
      = some EF.pinf) := by
  have hcost : (evaluate_pid_cost sq0 2 pidZero sceneU ⟨0, 1, 1⟩).map
      CostResult.cost = some EF.nan := by
    norm_num [evaluate_pid_cost, epc_loop, pid_calculate_thrust, take_step,
      update_status_rk4, rk4_k2, rk4_k3, rk4_k4, calculate_forces,
      calculate_g, full_mass, current_thrust, ground_contact_detector,
      sceneU, rocketU, planetG1, Gconst, hoverslam_event_interpolator,
      unstable_vz, EF.abs, EF.add, EF.mulq, sq0, pidZero]
  refine ⟨?_, hcost, ?_⟩
  · norm_num [evaluate_pid_cost, epc_loop, pid_calculate_thrust, take_step,
      update_status_rk4, rk4_k2, rk4_k3, rk4_k4, calculate_forces,
      calculate_g, full_mass, current_thrust, ground_contact_detector,
      sceneU, rocketU, planetG1, Gconst, hoverslam_event_interpolator,
      unstable_vz, EF.abs, EF.add, EF.mulq, sq0, pidZero]
  · rw [hcost]
    decide

/-- C5 witness: the amended theorem applied to concrete Unstable runs:
`velocity_at_landing` on `sceneU` returns `+inf`, and `evaluate_pid_cost`
with weights `(1, 1, 1)` (so `weights[0] > 0`) returns `+inf`. -/
theorem c5_unstable_infinity_witness :
    (velocity_at_landing 2 sceneU 100).map ValResult.value = some EF.pinf ∧
    (evaluate_pid_cost sq0 2 pidZero sceneU ⟨1, 1, 1⟩).map CostResult.cost
      = some EF.pinf := by
  constructor
  · have hevt : (velocity_at_landing 2 sceneU 100).map ValResult.event
        = some EventT.ev_unstable := by
      norm_num [velocity_at_landing, val_loop, take_step, update_status_rk4,
        rk4_k2, rk4_k3, rk4_k4, calculate_forces, calculate_g, full_mass,
        current_thrust, ground_contact_detector, sceneU, rocketU, planetG1,
        Gconst, hoverslam_event_interpolator, unstable_vz, EF.abs]
    cases hv : velocity_at_landing 2 sceneU 100 with
    | none => rw [hv] at hevt; cases hevt
    | some res =>
      rw [hv, Option.map_some'] at hevt
      have hev : res.event = .ev_unstable := Option.some.inj hevt
      have hval := (c5_unstable_infinity sq0 2 sceneU 100 pidZero
        ⟨1, 1, 1⟩).1 res hv hev
      rw [Option.map_some', hval]
  · have hevt : (evaluate_pid_cost sq0 2 pidZero sceneU ⟨1, 1, 1⟩).map
        CostResult.event = some EventT.ev_unstable := by
      norm_num [evaluate_pid_cost, epc_loop, pid_calculate_thrust, take_step,
        update_status_rk4, rk4_k2, rk4_k3, rk4_k4, calculate_forces,
        calculate_g, full_mass, current_thrust, ground_contact_detector,
        sceneU, rocketU, planetG1, Gconst, hoverslam_event_interpolator,
        unstable_vz, EF.abs, EF.add, EF.mulq, sq0, pidZero]
    cases hv : evaluate_pid_cost sq0 2 pidZero sceneU ⟨1, 1, 1⟩ with
    | none => rw [hv] at hevt; cases hevt
    | some res =>
      rw [hv, Option.map_some'] at hevt
      have hev : res.event = .ev_unstable := Option.some.inj hevt
      have hval := (c5_unstable_infinity sq0 2 sceneU 100 pidZero
        ⟨1, 1, 1⟩).2 res hv hev (by norm_num)
      rw [Option.map_some', hval]

lemma golden_search_sceneW_eval :
    golden_search_hoverslam sq0 2 1 sceneW 1 = some gsW := by
  norm_num [golden_search_hoverslam, gs_loop, gs_restore, gsW, sq0,
    velocity_at_landing, val_loop, take_step, update_status_rk4, rk4_k2,
    rk4_k3, rk4_k4, calculate_forces, calculate_g, full_mass,
    current_thrust, ground_contact_detector, sceneW, rocketW, planetG100,
    Gconst, hoverslam_event_interpolator, unstable_vz, EF.abs, EF.lt]

/-- C1 witness: the golden-section structure theorem applied to the
concrete terminating run on `sceneW`. -/
theorem c1_golden_section_witness :
    gsW.t = (gsW.left + gsW.right) / 2 ∧
    gsW.right - gsW.left ≤ 1 ∧
    gsW.probes.length = 2 + gsW.iters ∧
    gs_objective 2 sceneW gsW.m1 = some gsW.f1 := by
  have h := (c1_golden_section sq0 2 1 sceneW 1).1 gsW golden_search_sceneW_eval
  exact ⟨h.2.2.1, h.2.1, h.2.2.2.1, h.2.2.2.2.1⟩

set_option maxHeartbeats 2000000 in
lemma tune_pid_sceneP_eval :
    tune_pid_twiddle sq0 2 1 sceneP 100 ⟨1, 1, 1⟩ ⟨10, 5, 1⟩
      = some (pidZero, sceneP) := by
  norm_num [tune_pid_twiddle, tw_loop, tw_eval, tw_restore, tw_gains,
    T3.sum, pidZero, evaluate_pid_cost, epc_loop, pid_calculate_thrust,
    take_step, update_status_rk4, rk4_k2, rk4_k3, rk4_k4, calculate_forces,
    calculate_g, full_mass, current_thrust, ground_contact_detector,
    sceneP, rocketP, planetG100, Gconst, hoverslam_event_interpolator,
    unstable_vz, EF.abs, EF.add, EF.mulq, sq0]

/-- C6 witness: the coordinate-step characterization applied to the
concrete state `twSt0` (where neither trial strictly improves, so the
coordinate is restored exactly and its step size shrinks by 0.9). -/
theorem c6_twiddle_witness :
    twC6.p = twSt0.p ∧ twC6.best = twSt0.best ∧
    twC6.dp = twSt0.dp.set 0 (twSt0.dp.get 0 * (9 / 10)) := by
  have hcoord : tw_coord sq0 2 sceneP.rocket sceneP.time ⟨1, 1, 1⟩ 0 twSt0
      = some twC6 := by
    norm_num [tw_coord, tw_eval, tw_restore, tw_gains, T3.set, T3.get,
      twSt0, twC6, pidZero, evaluate_pid_cost, epc_loop,
      pid_calculate_thrust, take_step, update_status_rk4, rk4_k2, rk4_k3,
      rk4_k4, calculate_forces, calculate_g, full_mass, current_thrust,
      ground_contact_detector, sceneP, rocketP, planetG100, Gconst,
      hoverslam_event_interpolator, unstable_vz, EF.abs, EF.add, EF.mulq,
      sq0, EF.lt]
    rw [abs_of_pos (show (0 : ℚ) < 443419 / 283122 by norm_num)]
    norm_num
  have hcplus : tw_cost sq0 2 sceneP ⟨1, 1, 1⟩
      (twSt0.p.set 0 (twSt0.p.get 0 + twSt0.dp.get 0))
      = some (.fin (443419 / 283122)) := by
    norm_num [tw_cost, tw_gains, T3.set, T3.get, twSt0, pidZero,
      evaluate_pid_cost, epc_loop, pid_calculate_thrust, take_step,
      update_status_rk4, rk4_k2, rk4_k3, rk4_k4, calculate_forces,
      calculate_g, full_mass, current_thrust, ground_contact_detector,
      sceneP, rocketP, planetG100, Gconst, hoverslam_event_interpolator,
      unstable_vz, EF.abs, EF.add, EF.mulq, sq0]
  have hcminus : tw_cost sq0 2 sceneP ⟨1, 1, 1⟩
      (twSt0.p.set 0 (twSt0.p.get 0 - twSt0.dp.get 0))
      = some (.fin (443419 / 283122)) := by
    norm_num [tw_cost, tw_gains, T3.set, T3.get, twSt0, pidZero,
      evaluate_pid_cost, epc_loop, pid_calculate_thrust, take_step,
      update_status_rk4, rk4_k2, rk4_k3, rk4_k4, calculate_forces,
      calculate_g, full_mass, current_thrust, ground_contact_detector,
      sceneP, rocketP, planetG100, Gconst, hoverslam_event_interpolator,
      unstable_vz, EF.abs, EF.add, EF.mulq, sq0]
  have hltf : EF.lt (.fin (443419 / 283122)) twSt0.best = false := by
    norm_num [EF.lt, twSt0]
  have h := ((c6_twiddle sq0 2 1 sceneP 100 ⟨1, 1, 1⟩ ⟨10, 5, 1⟩).2.2.2.2
    0 twSt0 twC6 (.fin (443419 / 283122)) rfl hcoord hcplus).2 hltf
    (.fin (443419 / 283122)) hcminus
  have h2 := h.2 hltf
  exact ⟨h2.1, h2.2.1, h2.2.2⟩

/-- C8 witness: the isolation theorem applied to concrete terminating
runs of both optimizers. -/
theorem c8_baseline_isolation_witness :
    (gsW.scene.rocket = sceneW.rocket ∧ gsW.scene.time = sceneW.time ∧
     gsW.scene.dt = sceneW.dt) ∧
    (sceneP.rocket = sceneP.rocket ∧ sceneP.time = sceneP.time ∧
     sceneP.dt = sceneP.dt) := by
  constructor
  · exact (c8_baseline_isolation sq0 2 1 2 1 sceneW 1 100 ⟨1, 1, 1⟩
      ⟨10, 5, 1⟩).1 gsW golden_search_sceneW_eval
  · exact (c8_baseline_isolation sq0 2 1 2 1 sceneP 1 100 ⟨1, 1, 1⟩
      ⟨10, 5, 1⟩).2 pidZero sceneP tune_pid_sceneP_eval

end FlightSim
